import Mathlib

/-!
Verification of the pause/unpause decision engine of the crossplane-pause
repository (reconciler.go), as a shallow embedding.

Modelling conventions:
* Times and durations are `Int` nanoseconds (Go `time.Time` / `time.Duration`).
* The managed resource (`unstructured.Unstructured`) is modelled by `Obj`,
  keeping exactly the regions the reconciler reads: the metadata annotation
  map, the metadata label map, the desired-state region ("spec", kept as an
  opaque optional content value compared for deep equality), the status
  conditions (pairs of type and status strings), and the deletion timestamp
  (`none` models the zero/absent deletion marker).
* Annotation maps are association lists with strictly sorted keys (the
  canonical form of a Go map); deep equality of Go maps is list equality on
  this canonical form.
* An annotation value is either an arbitrary string (`AnnVal.str`), or a
  string that `json.Unmarshal` accepts as a `PauseInfo` record
  (`AnnVal.enc`), carrying the decoded fields.  The wire form produced by
  `json.Marshal` stores the `metav1.Time` fields at second precision
  (RFC3339), which `truncSec` models; the embedded object snapshot is stored
  verbatim (an `Unstructured` already holds wire-form data).
* Client `Get`/`Update` calls are assumed to succeed; `reconcile` returns
  `none` where the Go code dereferences a nil pointer (panic), and
  `RecOutcome.fail` where it returns a surfaced error.
-/

/-- `AnnotationKeyReconciliationPaused` from reconciler.go line 30. -/
def AnnotationKeyReconciliationPaused : String := "crossplane.io/paused"

/-- `AnnotationKeyPauseInfo` from reconciler.go line 33. -/
def AnnotationKeyPauseInfo : String := "cloud.pingcap.com/pause-info"

/-- Second-precision truncation applied by `metav1.Time`'s JSON marshalling
(RFC3339 drops sub-second digits; the repository's own test notes that
marshalling loses the nanosecond part). -/
def truncSec (t : Int) : Int := (Int.fdiv t 1000000000) * 1000000000

/-- The jitter value the source computes from a draw `d` of
`rand.Int63n(interval)`: `time.Duration(float64(d) * 0.1)`, i.e. one tenth
of the draw (exact for draws divisible by 10). -/
def jitterOfDraw (d : Int) : Int := Int.fdiv d 10

mutual

/-- An annotation value: an arbitrary string, or a string that decodes as a
`PauseInfo` record (reconciler.go lines 40-48), with `metav1.Time` fields
already at wire precision. -/
inductive AnnVal where
  | str (s : String)
  | enc (pause : Bool) (object : Option Obj)
        (lastPauseTime lastUnPauseTime shouldUnpauseTime : Option Int)

/-- The managed resource: annotation map, label map, desired-state region,
status conditions (type, status), deletion timestamp. -/
inductive Obj where
  | mk (ann : Option (List (String × AnnVal)))
       (labels : Option (List (String × String)))
       (spec : Option String)
       (conds : Option (List (String × String)))
       (delTs : Option Int)

end

/-- Annotation map of a resource. -/
def Obj.ann : Obj → Option (List (String × AnnVal))
  | .mk a _ _ _ _ => a

/-- Label map of a resource. -/
def Obj.labels : Obj → Option (List (String × String))
  | .mk _ l _ _ _ => l

/-- Desired-state region of a resource. -/
def Obj.spec : Obj → Option String
  | .mk _ _ s _ _ => s

/-- Status conditions of a resource. -/
def Obj.conds : Obj → Option (List (String × String))
  | .mk _ _ _ c _ => c

/-- Deletion timestamp of a resource (`none` = zero value). -/
def Obj.delTs : Obj → Option Int
  | .mk _ _ _ _ d => d

mutual

/-- Deep structural equality of annotation values (`reflect.DeepEqual`). -/
def AnnVal.beq : AnnVal → AnnVal → Bool
  | .str a, .str b => a == b
  | .enc p1 o1 a1 b1 c1, .enc p2 o2 a2 b2 c2 =>
      p1 == p2 && objOptBeq o1 o2 && a1 == a2 && b1 == b2 && c1 == c2
  | _, _ => false

/-- Deep structural equality of optional resources. -/
def objOptBeq : Option Obj → Option Obj → Bool
  | none, none => true
  | some a, some b => Obj.beq a b
  | _, _ => false

/-- Deep structural equality of resources. -/
def Obj.beq : Obj → Obj → Bool
  | .mk an1 l1 s1 c1 d1, .mk an2 l2 s2 c2 d2 =>
      annOptBeq an1 an2 && l1 == l2 && s1 == s2 && c1 == c2 && d1 == d2

/-- Deep structural equality of optional annotation maps. -/
def annOptBeq : Option (List (String × AnnVal)) → Option (List (String × AnnVal)) → Bool
  | none, none => true
  | some a, some b => annListBeq a b
  | _, _ => false

/-- Deep structural equality of annotation maps (in canonical list form). -/
def annListBeq : List (String × AnnVal) → List (String × AnnVal) → Bool
  | [], [] => true
  | (k1, v1) :: t1, (k2, v2) :: t2 => k1 == k2 && AnnVal.beq v1 v2 && annListBeq t1 t2
  | _, _ => false

end

mutual

theorem annValBeqRefl : ∀ a : AnnVal, AnnVal.beq a a = true
  | .str s => by simp [AnnVal.beq]
  | .enc p o a b c => by simp [AnnVal.beq, objOptBeqRefl o]

theorem objOptBeqRefl : ∀ o : Option Obj, objOptBeq o o = true
  | none => by simp [objOptBeq]
  | some x => by simp [objOptBeq, objBeqRefl x]

theorem objBeqRefl : ∀ o : Obj, Obj.beq o o = true
  | .mk an l s c d => by simp [Obj.beq, annOptBeqRefl an]

theorem annOptBeqRefl : ∀ o : Option (List (String × AnnVal)), annOptBeq o o = true
  | none => by simp [annOptBeq]
  | some l => by simp [annOptBeq, annListBeqRefl l]

theorem annListBeqRefl : ∀ l : List (String × AnnVal), annListBeq l l = true
  | [] => by simp [annListBeq]
  | (k, v) :: t => by simp [annListBeq, annValBeqRefl v, annListBeqRefl t]

end

/-- `PauseInfo` (reconciler.go lines 40-48): the in-memory decision record.
Times are `Int` nanoseconds. -/
structure PauseInfo where
  Pause : Bool
  Object : Option Obj
  LastPauseTime : Option Int
  LastUnPauseTime : Option Int
  ShouldUnpauseTime : Option Int

/-- The zero `PauseInfo` record (`&PauseInfo{Pause: false}`). -/
def defaultInfo : PauseInfo := ⟨false, none, none, none, none⟩

/-- Map lookup on the association-list form of a Go map. -/
def lookupKey (k : String) (l : List (String × AnnVal)) : Option AnnVal :=
  (l.find? (fun p => p.1 == k)).map Prod.snd

/-- Map key removal (`unstructured.RemoveNestedField` on one annotation key);
removing the last key leaves an empty, still present, map. -/
def eraseKey (k : String) (l : List (String × AnnVal)) : List (String × AnnVal) :=
  l.filter (fun p => p.1 != k)

/-- Map assignment `m[k] = v`, keeping the canonical sorted form. -/
def insertSorted (k : String) (v : AnnVal) : List (String × AnnVal) → List (String × AnnVal)
  | [] => [(k, v)]
  | (k', v') :: t =>
    if k < k' then (k, v) :: (k', v') :: t
    else if k == k' then (k, v) :: t
    else (k', v') :: insertSorted k v t

/-- Lookup through an optional annotation map (`obj.GetAnnotations()[k]`
with a missing map behaving as empty). -/
def annLookup (k : String) : Option (List (String × AnnVal)) → Option AnnVal
  | none => none
  | some l => lookupKey k l

/-- The string a Go map read `ann[k]` yields: the stored string, or `""`
when the key is absent.  An `AnnVal.enc` value stands for a JSON object
text, which is never the string `"true"`; it is mapped to `""` here since
only the comparison with `"true"` consumes this value. -/
def annStrVal : Option AnnVal → String
  | some (.str s) => s
  | _ => ""

/-- Canonical (Go map) form: keys strictly sorted. -/
abbrev keysSorted (l : List (String × AnnVal)) : Prop :=
  l.Pairwise (fun p q => p.1 < q.1)

/-- `json.Marshal` of a `PauseInfo` (reconciler.go line 245): the wire value
stored in the annotation.  `metav1.Time` fields are truncated to second
precision; the object snapshot is stored verbatim. -/
def encodeInfo (i : PauseInfo) : AnnVal :=
  AnnVal.enc i.Pause i.Object (i.LastPauseTime.map truncSec)
    (i.LastUnPauseTime.map truncSec) (i.ShouldUnpauseTime.map truncSec)

/-- `json.Unmarshal` of an annotation value into a `PauseInfo`
(reconciler.go line 215): fails (`none`) on a string that is not a
well-formed record. -/
def decodePauseAnn : AnnVal → Option PauseInfo
  | AnnVal.str _ => none
  | AnnVal.enc p o a b c => some ⟨p, o, a, b, c⟩

/-- `parsePauseInfo` (reconciler.go lines 206-221): absent annotation gives
`ok none`; a present but undecodable value is an error. -/
def parsePauseInfo (obj : Obj) : Except Unit (Option PauseInfo) :=
  match annLookup AnnotationKeyPauseInfo (Obj.ann obj) with
  | none => Except.ok none
  | some v =>
    match decodePauseAnn v with
    | none => Except.error ()
    | some i => Except.ok (some i)

/-- `isPaused` (reconciler.go lines 381-383). -/
def isPaused (v : String) : Bool := v == "true"

/-- `getCondition` (reconciler.go lines 385-421): status of the first
condition with the given type, if any. -/
def getCondition (ty : String) (obj : Obj) : Option String :=
  match Obj.conds obj with
  | none => none
  | some l => ((l.find? (fun p => p.1 == ty)).map Prod.snd)

/-- `checkFieldEqual` (reconciler.go lines 352-379): presence mismatch is
inequality, both absent is equality, otherwise deep equality of content. -/
def checkFieldEqual {α : Type} (eqf : α → α → Bool) : Option α → Option α → Bool
  | none, none => true
  | some a, some b => eqf a b
  | _, _ => false

/-- The marker-stripping step of `isUpdated` (reconciler.go lines 309-313):
remove the pause-flag marker and the PauseState annotation from the
annotation map. -/
def stripOwnKeys (o : Obj) : Obj :=
  Obj.mk ((Obj.ann o).map
      (fun l => eraseKey AnnotationKeyPauseInfo (eraseKey AnnotationKeyReconciliationPaused l)))
    (Obj.labels o) (Obj.spec o) (Obj.conds o) (Obj.delTs o)

/-- `isUpdated` (reconciler.go lines 305-350): after stripping the two owned
annotation keys from both resources, compare the spec region, the annotation
map and the label map; any difference means drift. -/
def isUpdated (old now : Obj) : Bool :=
  let now1 := stripOwnKeys now
  let old1 := stripOwnKeys old
  if !checkFieldEqual (fun a b : String => decide (a = b)) (Obj.spec old1) (Obj.spec now1) then true
  else if !checkFieldEqual annListBeq (Obj.ann old1) (Obj.ann now1) then true
  else if !checkFieldEqual (fun a b : List (String × String) => decide (a = b))
      (Obj.labels old1) (Obj.labels now1) then true
  else false

/-- What one reconcile evaluation did to the resource. -/
inductive RecAction where
  | didPause (reason : String)
  | didUnpause (reason : String)

/-- Result of a transition helper: the resource as written, the mutated
in-memory record, and the transitions actually performed. -/
structure TransStep where
  obj : Obj
  info : PauseInfo
  acts : List RecAction

/-- `ensurePause` (reconciler.go lines 223-265).  A paused record is a
no-op.  Otherwise: set `Pause`, `LastPauseTime`, alias the snapshot to the
resource, compute `ShouldUnpauseTime` when a poll interval is configured
(the source computes a jitter from the random draw but discards the result
of `shouldUnpauseTime.Add(jitter)`, so the stored time is `now + interval`),
remove the PauseState annotation from the resource (and hence from the
aliased snapshot), marshal the record, then write both annotation keys.
The caller always passes a non-nil record. -/
def ensurePause (obj : Obj) (info : PauseInfo) (unPausePollInterval : Option Int)
    (now draw : Int) (reason : String) : TransStep :=
  if info.Pause then ⟨obj, info, []⟩
  else
    let obj1 := Obj.mk ((Obj.ann obj).map (eraseKey AnnotationKeyPauseInfo))
      (Obj.labels obj) (Obj.spec obj) (Obj.conds obj) (Obj.delTs obj)
    let sut : Option Int :=
      match unPausePollInterval with
      | some ivl =>
        let _jitter := jitterOfDraw draw
        some (now + ivl)
      | none => info.ShouldUnpauseTime
    let info1 : PauseInfo := ⟨true, some obj1, some now, info.LastUnPauseTime, sut⟩
    let ann1 := (Obj.ann obj1).getD []
    let ann2 := insertSorted AnnotationKeyPauseInfo (encodeInfo info1)
      (insertSorted AnnotationKeyReconciliationPaused (AnnVal.str "true") ann1)
    ⟨Obj.mk (some ann2) (Obj.labels obj1) (Obj.spec obj1) (Obj.conds obj1) (Obj.delTs obj1),
      info1, [RecAction.didPause reason]⟩

/-- `ensureUnPause` (reconciler.go lines 267-303).  An unpaused record is a
no-op.  Otherwise: clear `Pause`, drop the snapshot, set `LastUnPauseTime`,
clear `ShouldUnpauseTime`, marshal the record, delete the pause-flag marker
and write the PauseState annotation.  The caller always passes a non-nil
record. -/
def ensureUnPause (obj : Obj) (info : PauseInfo) (now : Int) (reason : String) : TransStep :=
  if !info.Pause then ⟨obj, info, []⟩
  else
    let info1 : PauseInfo := ⟨false, none, info.LastPauseTime, some now, none⟩
    let ann1 := eraseKey AnnotationKeyReconciliationPaused ((Obj.ann obj).getD [])
    let ann2 := insertSorted AnnotationKeyPauseInfo (encodeInfo info1) ann1
    ⟨Obj.mk (some ann2) (Obj.labels obj) (Obj.spec obj) (Obj.conds obj) (Obj.delTs obj),
      info1, [RecAction.didUnpause reason]⟩

/-- `Reconciler` configuration (reconciler.go lines 52-64); the frozen
duration is stored after `SetupWithManager` applied the 5-minute default. -/
structure Reconciler where
  UnPausePollInterval : Option Int
  FrozenTimeDuration : Int

/-- Outcome of one reconcile evaluation: a surfaced error, or the written
resource with the performed transitions and the requested requeue delay. -/
inductive RecOutcome where
  | fail
  | ok (obj : Obj) (acts : List RecAction) (requeueAfter : Option Int)

/-- The `info.Pause == false` tail of `Reconcile` after the frozen-window
check (reconciler.go lines 164-187): inspect Ready then Synced; pause when
both are `"True"`. -/
def conditionPhase (r : Reconciler) (now draw : Int) (obj : Obj) (info : PauseInfo)
    (acts : List RecAction) : Option RecOutcome :=
  let ready := getCondition "Ready" obj
  if !(ready == some "True") then some (RecOutcome.ok obj acts none)
  else
    let synced := getCondition "Synced" obj
    if !(synced == some "True") then some (RecOutcome.ok obj acts none)
    else
      let st := ensurePause obj info r.UnPausePollInterval now draw "Ready and Synced"
      some (RecOutcome.ok st.obj (acts ++ st.acts) none)

/-- The `info.Pause == false` branch of `Reconcile` (reconciler.go lines
156-162): inside the frozen window, requeue after the remaining duration;
otherwise fall through to the condition checks. -/
def unpausedPhase (r : Reconciler) (now draw : Int) (obj : Obj) (info : PauseInfo)
    (acts : List RecAction) : Option RecOutcome :=
  match info.LastUnPauseTime with
  | some lupt =>
    if now < lupt + r.FrozenTimeDuration then
      some (RecOutcome.ok obj acts (some (lupt + r.FrozenTimeDuration - now)))
    else conditionPhase r now draw obj info acts
  | none => conditionPhase r now draw obj info acts

/-- The `info.Pause == true` branch of `Reconcile` (reconciler.go lines
117-154).  A nil snapshot makes `isUpdated` dereference nil (`none` here);
with a poll interval, `info.LastPauseTime.Add` is evaluated before
`ShouldUnpauseTime` is consulted, so a nil `LastPauseTime` dereferences nil
even when `ShouldUnpauseTime` is present. -/
def pausedPhase (r : Reconciler) (now : Int) (obj : Obj) (info : PauseInfo)
    (acts : List RecAction) : Option RecOutcome :=
  match info.Object with
  | none => none
  | some snap =>
    if isUpdated obj snap then
      let st := ensureUnPause obj info now "resource, updated"
      some (RecOutcome.ok st.obj (acts ++ st.acts) none)
    else
      match r.UnPausePollInterval with
      | some ivl =>
        match info.LastPauseTime with
        | none => none
        | some lpt =>
          let due := (info.ShouldUnpauseTime).getD (lpt + ivl)
          if now < due then some (RecOutcome.ok obj acts (some (due - now)))
          else
            let st := ensureUnPause obj info now "resource trigger unPause poll interval"
            some (RecOutcome.ok st.obj (acts ++ st.acts) none)
      | none => some (RecOutcome.ok obj acts none)

/-- `Reconcile` (reconciler.go lines 68-188) for a resource that exists and
whose fetch succeeds: decode the PauseState, ignore a resource paused by
someone else, unpause a deleted resource, then dispatch on the (possibly
just rewritten) pause flag. -/
def reconcile (r : Reconciler) (now draw : Int) (obj : Obj) : Option RecOutcome :=
  match parsePauseInfo obj with
  | Except.error _ => some RecOutcome.fail
  | Except.ok infoOpt =>
    if isPaused (annStrVal (annLookup AnnotationKeyReconciliationPaused (Obj.ann obj)))
        && infoOpt.isNone then
      some (RecOutcome.ok obj [] none)
    else
      let info0 := infoOpt.getD defaultInfo
      let st0 :=
        if (Obj.delTs obj).isSome then ensureUnPause obj info0 now "resource deleted"
        else ⟨obj, info0, []⟩
      if st0.info.Pause then pausedPhase r now st0.obj st0.info st0.acts
      else unpausedPhase r now draw st0.obj st0.info st0.acts


theorem lookupKey_nil (k : String) : lookupKey k [] = none := rfl

theorem lookupKey_cons (k : String) (p : String × AnnVal) (t : List (String × AnnVal)) :
    lookupKey k (p :: t) = if p.1 = k then some p.2 else lookupKey k t := by
  simp only [lookupKey, List.find?]
  cases hbk : (p.1 == k) with
  | true => simp [eq_of_beq hbk]
  | false => simp [ne_of_beq_false hbk]

theorem lookupKey_eraseKey_self (k : String) (l : List (String × AnnVal)) :
    lookupKey k (eraseKey k l) = none := by
  induction l with
  | nil => rfl
  | cons p t ih =>
    simp only [eraseKey] at ih ⊢
    rw [List.filter_cons]
    by_cases h : p.1 = k
    · simp [h, ih]
    · have hb : (p.1 != k) = true := by simp [h]
      simp [hb, lookupKey_cons, h, ih]

theorem lookupKey_eraseKey_ne (k k' : String) (l : List (String × AnnVal)) (h : k' ≠ k) :
    lookupKey k' (eraseKey k l) = lookupKey k' l := by
  induction l with
  | nil => rfl
  | cons p t ih =>
    simp only [eraseKey] at ih ⊢
    rw [List.filter_cons]
    by_cases hp : p.1 = k
    · simp [hp, ih, lookupKey_cons, Ne.symm h]
    · have hb : (p.1 != k) = true := by simp [hp]
      simp [hb, lookupKey_cons, ih]

theorem lookupKey_insertSorted_self (k : String) (v : AnnVal) (l : List (String × AnnVal)) :
    lookupKey k (insertSorted k v l) = some v := by
  induction l with
  | nil => simp [insertSorted, lookupKey_cons]
  | cons p t ih =>
    obtain ⟨k', v'⟩ := p
    simp only [insertSorted]
    by_cases h1 : k < k'
    · simp [h1, lookupKey_cons]
    · rw [if_neg h1]
      by_cases h2 : k = k'
      · have hb : (k == k') = true := beq_iff_eq.mpr h2
        simp [hb, lookupKey_cons]
      · have hb : (k == k') = false := by simp [h2]
        simp [hb, lookupKey_cons, Ne.symm h2, ih]

theorem lookupKey_insertSorted_ne (k k' : String) (v : AnnVal) (l : List (String × AnnVal))
    (h : k' ≠ k) : lookupKey k' (insertSorted k v l) = lookupKey k' l := by
  induction l with
  | nil => simp [insertSorted, lookupKey_cons, Ne.symm h]
  | cons p t ih =>
    obtain ⟨k1, v1⟩ := p
    simp only [insertSorted]
    by_cases h1 : k < k1
    · simp [h1, lookupKey_cons, Ne.symm h]
    · rw [if_neg h1]
      by_cases h2 : k = k1
      · have hb : (k == k1) = true := beq_iff_eq.mpr h2
        have hk1 : k1 ≠ k' := fun hh => h (h2 ▸ hh).symm
        simp [hb, lookupKey_cons, Ne.symm h, hk1, h2]
      · have hb : (k == k1) = false := by simp [h2]
        simp [hb, lookupKey_cons, ih]

theorem lookupKey_eq_none_of_forall_lt (k : String) (l : List (String × AnnVal))
    (h : ∀ p ∈ l, k < p.1) : lookupKey k l = none := by
  induction l with
  | nil => rfl
  | cons p t ih =>
    have hk : p.1 ≠ k := by
      have hlt := h p (List.mem_cons_self p t)
      exact fun hh => absurd (hh ▸ hlt) (lt_irrefl k)
    rw [lookupKey_cons, if_neg hk]
    exact ih (fun q hq => h q (List.mem_cons_of_mem p hq))

theorem keysSorted_eraseKey (k : String) (l : List (String × AnnVal)) (h : keysSorted l) :
    keysSorted (eraseKey k l) :=
  List.Pairwise.sublist (List.filter_sublist l) h

theorem eq_of_lookupKey_eq : ∀ (l1 l2 : List (String × AnnVal)),
    keysSorted l1 → keysSorted l2 → (∀ k, lookupKey k l1 = lookupKey k l2) → l1 = l2
  | [], [], _, _, _ => rfl
  | [], (k2, v2) :: t2, _, _, h => by
    have hh := h k2
    rw [lookupKey_nil, lookupKey_cons, if_pos rfl] at hh
    exact absurd hh (by simp)
  | (k1, v1) :: t1, [], _, _, h => by
    have hh := h k1
    rw [lookupKey_nil, lookupKey_cons, if_pos rfl] at hh
    exact absurd hh (by simp)
  | (k1, v1) :: t1, (k2, v2) :: t2, h1, h2, h => by
    obtain ⟨hh1, ht1⟩ := List.pairwise_cons.mp h1
    obtain ⟨hh2, ht2⟩ := List.pairwise_cons.mp h2
    have hkeys : k1 = k2 := by
      rcases lt_trichotomy k1 k2 with hlt | heq | hgt
      · exfalso
        have hx := h k1
        rw [lookupKey_cons, if_pos rfl, lookupKey_cons, if_neg (ne_of_gt hlt)] at hx
        rw [lookupKey_eq_none_of_forall_lt k1 t2 (fun q hq => lt_trans hlt (hh2 q hq))] at hx
        exact absurd hx (by simp)
      · exact heq
      · exfalso
        have hx := h k2
        rw [lookupKey_cons, if_neg (ne_of_gt hgt), lookupKey_cons, if_pos rfl] at hx
        rw [lookupKey_eq_none_of_forall_lt k2 t1 (fun q hq => lt_trans hgt (hh1 q hq))] at hx
        exact absurd hx (by simp)
    subst hkeys
    have hv : v1 = v2 := by
      have hx := h k1
      rw [lookupKey_cons, if_pos rfl, lookupKey_cons, if_pos rfl] at hx
      exact Option.some.inj hx
    subst hv
    have htail : t1 = t2 := by
      refine eq_of_lookupKey_eq t1 t2 ht1 ht2 (fun k => ?_)
      by_cases hk : k = k1
      · subst hk
        rw [lookupKey_eq_none_of_forall_lt k t1 (fun q hq => hh1 q hq),
          lookupKey_eq_none_of_forall_lt k t2 (fun q hq => hh2 q hq)]
      · have hx := h k
        rw [lookupKey_cons, if_neg (fun hh => hk hh.symm),
          lookupKey_cons, if_neg (fun hh => hk hh.symm)] at hx
        exact hx
    rw [htail]

theorem checkFieldEqual_decide_self {α : Type} [DecidableEq α] (x : Option α) :
    checkFieldEqual (fun a b => decide (a = b)) x x = true := by
  cases x <;> simp [checkFieldEqual]

theorem ensureUnPause_noop (obj : Obj) (info : PauseInfo) (now : Int) (reason : String)
    (h : info.Pause = false) : ensureUnPause obj info now reason = ⟨obj, info, []⟩ := by
  simp [ensureUnPause, h]

theorem ensurePause_noop (obj : Obj) (info : PauseInfo) (ivl : Option Int) (now draw : Int)
    (reason : String) (h : info.Pause = true) :
    ensurePause obj info ivl now draw reason = ⟨obj, info, []⟩ := by
  simp [ensurePause, h]

theorem conditionPhase_acts_prefix (r : Reconciler) (now draw : Int) (obj : Obj)
    (info : PauseInfo) (acts : List RecAction) :
    ∃ o rest rq, conditionPhase r now draw obj info acts
      = some (RecOutcome.ok o (acts ++ rest) rq) := by
  unfold conditionPhase
  cases hR : (getCondition "Ready" obj == some "True") with
  | false => exact ⟨obj, [], none, by simp [hR]⟩
  | true =>
    cases hS : (getCondition "Synced" obj == some "True") with
    | false => exact ⟨obj, [], none, by simp [hR, hS]⟩
    | true =>
      refine ⟨(ensurePause obj info r.UnPausePollInterval now draw "Ready and Synced").obj,
        (ensurePause obj info r.UnPausePollInterval now draw "Ready and Synced").acts,
        none, ?_⟩
      simp [hR, hS]

theorem unpausedPhase_acts_prefix (r : Reconciler) (now draw : Int) (obj : Obj)
    (info : PauseInfo) (acts : List RecAction) :
    ∃ o rest rq, unpausedPhase r now draw obj info acts
      = some (RecOutcome.ok o (acts ++ rest) rq) := by
  unfold unpausedPhase
  cases hl : info.LastUnPauseTime with
  | none => exact conditionPhase_acts_prefix r now draw obj info acts
  | some lupt =>
    by_cases hf : now < lupt + r.FrozenTimeDuration
    · exact ⟨obj, [], some (lupt + r.FrozenTimeDuration - now), by simp [hf]⟩
    · simpa [hf] using conditionPhase_acts_prefix r now draw obj info acts

/-- An empty concrete resource, used by several concrete evaluations. -/
def objEmpty : Obj := Obj.mk none none none none none

/-- Claim C1: at a pause transition at time `now = 1000` with a configured
unpause poll interval of one hour and a random draw of `2000` seconds, the
source stores `ShouldUnpauseTime = now + interval` with no jitter term: the
jitter is computed (here it would be `200` seconds) but the result of
`shouldUnpauseTime.Add(jitter)` is discarded (reconciler.go line 240), so
the persisted due time differs from the specified `T + I + jitter`. -/
theorem C1_ensurePause_drops_jitter :
    (ensurePause objEmpty defaultInfo (some 3600000000000) 1000 2000000000000
        "Ready and Synced").info.ShouldUnpauseTime = some (1000 + 3600000000000)
    ∧ jitterOfDraw 2000000000000 = 200000000000
    ∧ (1000 + 3600000000000 : Int) ≠ 1000 + 3600000000000 + jitterOfDraw 2000000000000 := by
  refine ⟨rfl, by decide, by decide⟩

/-- A `PauseInfo` whose `LastPauseTime` has a sub-second component
(1.5 seconds since the epoch). -/
def piC7 : PauseInfo := ⟨false, none, some 1500000000, none, none⟩

/-- Claim C7 (counterexample): decoding the encoded form of a well-formed
`PauseInfo` whose `LastPauseTime` is 1.5s yields 1s (the wire format keeps
`metav1.Time` at second precision), so `decode (encode s) ≠ s`. -/
theorem C7_roundtrip_counterexample :
    ((decodePauseAnn (encodeInfo piC7)).map (fun i => i.LastPauseTime))
      = some (some 1000000000)
    ∧ piC7.LastPauseTime = some 1500000000
    ∧ decodePauseAnn (encodeInfo piC7) ≠ some piC7 := by
  refine ⟨by decide, rfl, ?_⟩
  intro h
  have h2 : (decodePauseAnn (encodeInfo piC7)).map (fun i => i.LastPauseTime)
      = some piC7.LastPauseTime := by rw [h]; rfl
  rw [show ((decodePauseAnn (encodeInfo piC7)).map (fun i => i.LastPauseTime))
      = some (some 1000000000) from by decide] at h2
  simp [piC7] at h2

/-- Claim C7 (amended): `decode (encode s) = s` holds for every well-formed
`PauseInfo`, with every optional field present or absent, provided each
present timestamp is at whole-second precision (the wire precision of
`metav1.Time`). -/
theorem C7_roundtrip_wholeSeconds (i : PauseInfo)
    (h1 : ∀ t, i.LastPauseTime = some t → truncSec t = t)
    (h2 : ∀ t, i.LastUnPauseTime = some t → truncSec t = t)
    (h3 : ∀ t, i.ShouldUnpauseTime = some t → truncSec t = t) :
    decodePauseAnn (encodeInfo i) = some i := by
  obtain ⟨p, o, a, b, c⟩ := i
  simp only [encodeInfo, decodePauseAnn, Option.some.injEq, PauseInfo.mk.injEq,
    true_and]
  refine ⟨?_, ?_, ?_⟩
  · cases a with
    | none => rfl
    | some t => simp [h1 t rfl]
  · cases b with
    | none => rfl
    | some t => simp [h2 t rfl]
  · cases c with
    | none => rfl
    | some t => simp [h3 t rfl]

/-- Witness for C7: a concrete round-trip through the amended theorem, with
some optional fields present (at whole seconds) and some absent. -/
theorem C7_roundtrip_witness :
    decodePauseAnn (encodeInfo ⟨true, some objEmpty, some 2000000000, none, some 0⟩)
      = some ⟨true, some objEmpty, some 2000000000, none, some 0⟩ := by
  refine C7_roundtrip_wholeSeconds _ ?_ ?_ ?_ <;> intro t ht <;>
    simp only [Option.some.injEq] at ht <;> first
      | (subst ht; decide)
      | exact absurd ht (by simp)

/-- Claim C8: when the PauseState annotation is present but not a decodable
record, the evaluation returns a surfaced error before any decision or
transition (`RecOutcome.fail`), and a resource with no PauseState
annotation decodes to an absent state without error. -/
theorem C8_malformed_state_surfaced (r : Reconciler) (now draw : Int) (obj : Obj) (s : String)
    (h : annLookup AnnotationKeyPauseInfo (Obj.ann obj) = some (AnnVal.str s)) :
    reconcile r now draw obj = some RecOutcome.fail
    ∧ parsePauseInfo obj = Except.error ()
    ∧ (∀ o2 : Obj, annLookup AnnotationKeyPauseInfo (Obj.ann o2) = none →
        parsePauseInfo o2 = Except.ok none) := by
  have hp : parsePauseInfo obj = Except.error () := by
    simp [parsePauseInfo, h, decodePauseAnn]
  refine ⟨?_, hp, ?_⟩
  · simp [reconcile, hp]
  · intro o2 h2
    simp [parsePauseInfo, h2]

/-- A resource whose PauseState annotation holds an undecodable string. -/
def objC8 : Obj :=
  Obj.mk (some [(AnnotationKeyPauseInfo, AnnVal.str "not-a-record")]) none none none none

/-- Witness for C8 at a concrete malformed resource and a concrete
annotation-free resource. -/
theorem C8_witness :
    reconcile ⟨none, 300000000000⟩ 0 0 objC8 = some RecOutcome.fail
    ∧ parsePauseInfo objEmpty = Except.ok none :=
  ⟨(C8_malformed_state_surfaced ⟨none, 300000000000⟩ 0 0 objC8 "not-a-record" rfl).1,
   (C8_malformed_state_surfaced ⟨none, 300000000000⟩ 0 0 objC8 "not-a-record" rfl).2.2
      objEmpty rfl⟩

/-- A resource already carrying the pause-flag marker (and nothing else). -/
def objC3 : Obj :=
  Obj.mk (some [(AnnotationKeyReconciliationPaused, AnnVal.str "true")]) none none none none

/-- Claim C3 (counterexample): a pause transition on a resource that already
carries the pause-flag marker (reachable when an external actor sets the
marker while the stored record says unpaused) writes a record whose
snapshot still contains the marker annotation: `ensurePause` strips only
the PauseState key from the snapshot (reconciler.go line 243), never the
marker, so the claimed "snapshot contains neither" invariant fails. -/
theorem C3_snapshot_keeps_marker :
    (ensurePause objC3 defaultInfo none 1000 0 "Ready and Synced").info.Pause = true
    ∧ ((ensurePause objC3 defaultInfo none 1000 0 "Ready and Synced").info.Object.map
        (fun o => annLookup AnnotationKeyReconciliationPaused (Obj.ann o)))
      = some (some (AnnVal.str "true")) :=
  ⟨rfl, rfl⟩

/-- Claim C3 (amended): every record written by a pause transition has
`Pause = true`, a present snapshot and a present `LastPauseTime`; the
snapshot never contains the PauseState annotation, and it excludes the
pause-flag marker whenever the marker was absent from the resource when the
pause began (the normal flow); every record written by an unpause
transition has `Pause = false`, an absent snapshot and a present
`LastUnPauseTime`.  In both cases the value written under the PauseState
key is the encoding of the returned record. -/
theorem C3_transition_invariants (obj : Obj) (info : PauseInfo) (ivl : Option Int)
    (now draw : Int) (r1 r2 : String) :
    (info.Pause = false →
      (ensurePause obj info ivl now draw r1).info.Pause = true
      ∧ (ensurePause obj info ivl now draw r1).info.LastPauseTime = some now
      ∧ (∃ snap, (ensurePause obj info ivl now draw r1).info.Object = some snap
        ∧ annLookup AnnotationKeyPauseInfo (Obj.ann snap) = none
        ∧ (annLookup AnnotationKeyReconciliationPaused (Obj.ann obj) = none →
            annLookup AnnotationKeyReconciliationPaused (Obj.ann snap) = none))
      ∧ annLookup AnnotationKeyPauseInfo
          (Obj.ann (ensurePause obj info ivl now draw r1).obj)
          = some (encodeInfo (ensurePause obj info ivl now draw r1).info))
    ∧ (info.Pause = true →
      (ensureUnPause obj info now r2).info.Pause = false
      ∧ (ensureUnPause obj info now r2).info.Object = none
      ∧ (ensureUnPause obj info now r2).info.LastUnPauseTime = some now
      ∧ annLookup AnnotationKeyPauseInfo (Obj.ann (ensureUnPause obj info now r2).obj)
          = some (encodeInfo (ensureUnPause obj info now r2).info)) := by
  have hkeys : AnnotationKeyReconciliationPaused ≠ AnnotationKeyPauseInfo := by decide
  constructor
  · intro h
    refine ⟨by simp [ensurePause, h], by simp [ensurePause, h],
      ⟨Obj.mk ((Obj.ann obj).map (eraseKey AnnotationKeyPauseInfo)) (Obj.labels obj)
        (Obj.spec obj) (Obj.conds obj) (Obj.delTs obj),
       by simp [ensurePause, h], ?_, ?_⟩, ?_⟩
    · cases ha : Obj.ann obj with
      | none => simp [Obj.ann, annLookup, ha]
      | some l => simp [Obj.ann, annLookup, ha, lookupKey_eraseKey_self]
    · intro hm
      cases ha : Obj.ann obj with
      | none => simp [Obj.ann, annLookup, ha]
      | some l =>
        rw [ha] at hm
        simp only [annLookup] at hm
        simp only [Obj.ann, ha, Option.map_some', annLookup]
        rw [lookupKey_eraseKey_ne _ _ _ hkeys]
        exact hm
    · simp [ensurePause, h, annLookup, Obj.ann, lookupKey_insertSorted_self]
  · intro h
    refine ⟨by simp [ensureUnPause, h], by simp [ensureUnPause, h],
      by simp [ensureUnPause, h], ?_⟩
    simp [ensureUnPause, h, annLookup, Obj.ann, lookupKey_insertSorted_self]

/-- Witness for C3 at a concrete pause and a concrete unpause transition. -/
theorem C3_witness :
    (ensurePause objEmpty defaultInfo none 5 0 "Ready and Synced").info.Pause = true
    ∧ (ensureUnPause objEmpty ⟨true, some objEmpty, some 1, none, none⟩ 7
        "resource deleted").info.Pause = false :=
  ⟨((C3_transition_invariants objEmpty defaultInfo none 5 0 "Ready and Synced"
      "resource deleted").1 rfl).1,
   ((C3_transition_invariants objEmpty ⟨true, some objEmpty, some 1, none, none⟩ none 7 0
      "Ready and Synced" "resource deleted").2 rfl).1⟩

theorem stripOwnKeys_spec (o : Obj) : Obj.spec (stripOwnKeys o) = Obj.spec o := by
  cases o
  rfl

theorem stripOwnKeys_labels (o : Obj) : Obj.labels (stripOwnKeys o) = Obj.labels o := by
  cases o
  rfl

theorem stripOwnKeys_ann (o : Obj) : Obj.ann (stripOwnKeys o)
    = (Obj.ann o).map
      (fun l => eraseKey AnnotationKeyPauseInfo (eraseKey AnnotationKeyReconciliationPaused l)) := by
  cases o
  rfl

/-- Claim C2 (amended): two snapshots whose spec regions are equal, whose
label regions are equal, whose annotation maps are both present or both
absent (in canonical sorted form), and which agree on every annotation key
other than the pause-flag marker and the PauseState key, are never seen as
drifted: `isUpdated` returns `false`.  (The presence condition is the part
the original claim is missing: an annotation map containing only the
markers strips down to an empty-but-present map, which the comparison
distinguishes from an absent one.) -/
theorem C2_isUpdated_ignores_markers (a b : Obj)
    (hs : Obj.spec a = Obj.spec b)
    (hl : Obj.labels a = Obj.labels b)
    (hpres : (Obj.ann a).isSome = (Obj.ann b).isSome)
    (hsa : ∀ l, Obj.ann a = some l → keysSorted l)
    (hsb : ∀ l, Obj.ann b = some l → keysSorted l)
    (hagree : ∀ k, k ≠ AnnotationKeyReconciliationPaused → k ≠ AnnotationKeyPauseInfo →
        annLookup k (Obj.ann a) = annLookup k (Obj.ann b)) :
    isUpdated a b = false := by
  have hann : Obj.ann (stripOwnKeys a) = Obj.ann (stripOwnKeys b) := by
    rw [stripOwnKeys_ann, stripOwnKeys_ann]
    cases ha : Obj.ann a with
    | none =>
      cases hb : Obj.ann b with
      | none => rfl
      | some l2 => rw [ha, hb] at hpres; simp at hpres
    | some l1 =>
      cases hb : Obj.ann b with
      | none => rw [ha, hb] at hpres; simp at hpres
      | some l2 =>
        simp only [Option.map_some', Option.some.injEq]
        apply eq_of_lookupKey_eq
        · exact keysSorted_eraseKey _ _ (keysSorted_eraseKey _ _ (hsa l1 ha))
        · exact keysSorted_eraseKey _ _ (keysSorted_eraseKey _ _ (hsb l2 hb))
        · intro k
          by_cases hk1 : k = AnnotationKeyPauseInfo
          · subst hk1
            rw [lookupKey_eraseKey_self, lookupKey_eraseKey_self]
          · rw [lookupKey_eraseKey_ne _ _ _ hk1, lookupKey_eraseKey_ne _ _ _ hk1]
            by_cases hk2 : k = AnnotationKeyReconciliationPaused
            · subst hk2
              rw [lookupKey_eraseKey_self, lookupKey_eraseKey_self]
            · rw [lookupKey_eraseKey_ne _ _ _ hk2, lookupKey_eraseKey_ne _ _ _ hk2]
              have hg := hagree k hk2 hk1
              rw [ha, hb] at hg
              simpa [annLookup] using hg
  have hs1 : Obj.spec (stripOwnKeys a) = Obj.spec (stripOwnKeys b) := by
    rw [stripOwnKeys_spec, stripOwnKeys_spec, hs]
  have hl1 : Obj.labels (stripOwnKeys a) = Obj.labels (stripOwnKeys b) := by
    rw [stripOwnKeys_labels, stripOwnKeys_labels, hl]
  have e2 : checkFieldEqual annListBeq (Obj.ann (stripOwnKeys b))
      (Obj.ann (stripOwnKeys b)) = true := by
    cases Obj.ann (stripOwnKeys b) with
    | none => rfl
    | some l => simpa [checkFieldEqual] using annListBeqRefl l
  simp only [isUpdated]
  rw [hs1, hl1, hann]
  simp [checkFieldEqual_decide_self, e2]

/-- A snapshot whose only annotation is the pause-flag marker. -/
def objC2a : Obj :=
  Obj.mk (some [(AnnotationKeyReconciliationPaused, AnnVal.str "true")]) none none none none

/-- Claim C2 (counterexample): `objC2a` carries only the pause-flag marker
annotation and `objEmpty` carries no annotation map at all — they agree on
every non-marker annotation key, on the spec region and on the label map —
yet `isUpdated` reports drift: stripping leaves an empty-but-present map on
one side and an absent map on the other, and `checkFieldEqual` treats the
presence mismatch as a difference. -/
theorem C2_marker_only_counterexample :
    (∀ k, k ≠ AnnotationKeyReconciliationPaused → k ≠ AnnotationKeyPauseInfo →
      annLookup k (Obj.ann objC2a) = annLookup k (Obj.ann objEmpty))
    ∧ Obj.spec objC2a = Obj.spec objEmpty
    ∧ Obj.labels objC2a = Obj.labels objEmpty
    ∧ isUpdated objC2a objEmpty = true := by
  refine ⟨?_, rfl, rfl, ?_⟩
  · intro k hk _
    simp only [objC2a, objEmpty, Obj.ann, annLookup, lookupKey_cons, lookupKey_nil]
    rw [if_neg (fun hh => hk hh.symm)]
  · simp [isUpdated, stripOwnKeys, objC2a, objEmpty, Obj.ann, Obj.spec, Obj.labels,
      Obj.conds, Obj.delTs, eraseKey, checkFieldEqual, List.filter]

/-- First concrete snapshot for the C2 witness: one ordinary annotation and
the pause-flag marker. -/
def objC2w1 : Obj :=
  Obj.mk (some [("a", AnnVal.str "x"), (AnnotationKeyReconciliationPaused, AnnVal.str "true")])
    none none none none

/-- Second concrete snapshot for the C2 witness: the same ordinary
annotation and a PauseState annotation instead of the marker. -/
def objC2w2 : Obj :=
  Obj.mk (some [("a", AnnVal.str "x"),
      (AnnotationKeyPauseInfo, AnnVal.enc false none none none none)])
    none none none none

/-- Witness for C2: the two concrete snapshots differing only in the owned
marker annotations are not seen as drifted. -/
theorem C2_witness : isUpdated objC2w1 objC2w2 = false := by
  refine C2_isUpdated_ignores_markers objC2w1 objC2w2 rfl rfl rfl ?_ ?_ ?_
  · intro l h
    simp only [objC2w1, Obj.ann, Option.some.injEq] at h
    subst h
    constructor
    · intro q hq
      simp only [List.mem_singleton] at hq
      subst hq
      rw [String.lt_iff_toList_lt]
      decide
    · simp
  · intro l h
    simp only [objC2w2, Obj.ann, Option.some.injEq] at h
    subst h
    constructor
    · intro q hq
      simp only [List.mem_singleton] at hq
      subst hq
      rw [String.lt_iff_toList_lt]
      decide
    · simp
  · intro k hk1 hk2
    simp only [objC2w1, objC2w2, Obj.ann, annLookup, lookupKey_cons, lookupKey_nil]
    by_cases hka : ("a" : String) = k
    · rw [if_pos hka, if_pos hka]
    · rw [if_neg hka, if_neg hka, if_neg (fun hh => hk1 hh.symm),
        if_neg (fun hh => hk2 hh.symm)]

theorem ensureUnPause_pause_false (obj : Obj) (info : PauseInfo) (now : Int) (reason : String)
    (h : info.Pause = true) : (ensureUnPause obj info now reason).info.Pause = false := by
  simp [ensureUnPause, h]

theorem ensureUnPause_acts (obj : Obj) (info : PauseInfo) (now : Int) (reason : String)
    (h : info.Pause = true) :
    (ensureUnPause obj info now reason).acts = [RecAction.didUnpause reason] := by
  simp [ensureUnPause, h]

theorem ensurePause_acts (obj : Obj) (info : PauseInfo) (ivl : Option Int) (now draw : Int)
    (reason : String) (h : info.Pause = false) :
    (ensurePause obj info ivl now draw reason).acts = [RecAction.didPause reason] := by
  simp [ensurePause, h]

theorem unpausedPhase_isSome (r : Reconciler) (now draw : Int) (obj : Obj)
    (info : PauseInfo) (acts : List RecAction) :
    (unpausedPhase r now draw obj info acts).isSome = true := by
  obtain ⟨o, rest, rq, h⟩ := unpausedPhase_acts_prefix r now draw obj info acts
  simp [h]

/-- Claim C4: an evaluation of a resource that carries a non-zero deletion
marker while its decoded PauseState has `Pause = true` performs the unpause
transition first (reason "resource deleted"), before and regardless of any
drift check or due-time check: the first recorded transition is always that
unpause. -/
theorem C4_deleted_paused_unpauses (r : Reconciler) (now draw : Int) (obj : Obj)
    (info : PauseInfo) (hp : parsePauseInfo obj = Except.ok (some info))
    (hpause : info.Pause = true) (hdel : (Obj.delTs obj).isSome = true) :
    ∃ o rest rq, reconcile r now draw obj
      = some (RecOutcome.ok o (RecAction.didUnpause "resource deleted" :: rest) rq) := by
  obtain ⟨o, rest, rq, hu⟩ := unpausedPhase_acts_prefix r now draw
    (ensureUnPause obj info now "resource deleted").obj
    (ensureUnPause obj info now "resource deleted").info
    [RecAction.didUnpause "resource deleted"]
  refine ⟨o, rest, rq, ?_⟩
  simp only [reconcile, hp, Option.isNone_some, Bool.and_false, Bool.false_eq_true,
    if_false, Option.getD_some, hdel, if_true,
    ensureUnPause_pause_false obj info now "resource deleted" hpause,
    ensureUnPause_acts obj info now "resource deleted" hpause, hu, List.singleton_append]

/-- A resource with a deletion timestamp and a paused PauseState record. -/
def objC4w : Obj :=
  Obj.mk (some [(AnnotationKeyPauseInfo,
      AnnVal.enc true (some objEmpty) (some 0) none none)]) none none none (some 7)

/-- Witness for C4 at a concrete deleted, paused resource. -/
theorem C4_witness :
    ∃ o rest rq, reconcile ⟨none, 300000000000⟩ 50 0 objC4w
      = some (RecOutcome.ok o (RecAction.didUnpause "resource deleted" :: rest) rq) :=
  C4_deleted_paused_unpauses ⟨none, 300000000000⟩ 50 0 objC4w
    ⟨true, some objEmpty, some 0, none, none⟩ rfl rfl rfl

/-- Claim C5: for a currently paused, non-drifted, non-deleted resource
(with the paused-state fields present, as the persisted-state invariant
guarantees): with a configured poll interval the due time is
`ShouldUnpauseTime` when present and `LastPauseTime + interval` otherwise;
at or past the due time the engine unpauses (reason "resource trigger
unPause poll interval"); before it, the resource and record are left
untouched and a re-evaluation is requested after exactly `due - now`; with
no poll interval configured, nothing is mutated and no re-evaluation is
requested. -/
theorem C5_paused_poll_logic (r : Reconciler) (now draw : Int) (obj : Obj)
    (info : PauseInfo) (snap : Obj) (lpt : Int)
    (hp : parsePauseInfo obj = Except.ok (some info))
    (hpause : info.Pause = true)
    (hsnap : info.Object = some snap)
    (hlpt : info.LastPauseTime = some lpt)
    (hdel : Obj.delTs obj = none)
    (hdrift : isUpdated obj snap = false) :
    (∀ ivl, r.UnPausePollInterval = some ivl →
      ((info.ShouldUnpauseTime.getD (lpt + ivl) ≤ now →
        reconcile r now draw obj = some (RecOutcome.ok
          (ensureUnPause obj info now "resource trigger unPause poll interval").obj
          [RecAction.didUnpause "resource trigger unPause poll interval"] none))
      ∧ (now < info.ShouldUnpauseTime.getD (lpt + ivl) →
        reconcile r now draw obj = some (RecOutcome.ok obj []
          (some (info.ShouldUnpauseTime.getD (lpt + ivl) - now))))))
    ∧ (r.UnPausePollInterval = none →
      reconcile r now draw obj = some (RecOutcome.ok obj [] none)) := by
  have hfront : reconcile r now draw obj = pausedPhase r now obj info [] := by
    simp only [reconcile, hp, Option.isNone_some, Bool.and_false, Bool.false_eq_true,
      if_false, Option.getD_some, hdel, Option.isSome_none, hpause, if_true]
  constructor
  · intro ivl hivl
    constructor
    · intro hdue
      rw [hfront]
      simp only [pausedPhase, hsnap, hdrift, Bool.false_eq_true, if_false, hivl, hlpt,
        not_lt.mpr hdue, if_false, List.nil_append,
        ensureUnPause_acts obj info now "resource trigger unPause poll interval" hpause]
    · intro hdue
      rw [hfront]
      simp only [pausedPhase, hsnap, hdrift, Bool.false_eq_true, if_false, hivl, hlpt,
        if_pos hdue]
  · intro hnone
    rw [hfront]
    simp only [pausedPhase, hsnap, hdrift, Bool.false_eq_true, if_false, hnone]

/-- The snapshot stored in the C5 witness resource: an empty-but-present
annotation map (exactly what stripping leaves on the resource itself). -/
def snapC5 : Obj := Obj.mk (some []) none none none none

/-- A paused, non-deleted resource whose record holds `snapC5`,
`LastPauseTime = 1000` and `ShouldUnpauseTime = 5000`. -/
def objC5w : Obj :=
  Obj.mk (some [(AnnotationKeyPauseInfo,
      AnnVal.enc true (some snapC5) (some 1000) none (some 5000))]) none none none none

/-- Witness for C5: at `now = 20000`, past the stored due time `5000`, the
concrete paused resource is unpaused by the poll-interval rule. -/
theorem C5_witness :
    reconcile ⟨some 10000, 300000000000⟩ 20000 0 objC5w
      = some (RecOutcome.ok
          (ensureUnPause objC5w ⟨true, some snapC5, some 1000, none, some 5000⟩ 20000
            "resource trigger unPause poll interval").obj
          [RecAction.didUnpause "resource trigger unPause poll interval"] none) := by
  have hbne : (AnnotationKeyPauseInfo != AnnotationKeyReconciliationPaused) = true := by decide
  have hdrift : isUpdated objC5w snapC5 = false := by
    simp [isUpdated, stripOwnKeys, objC5w, snapC5, Obj.ann, Obj.spec, Obj.labels,
      Obj.conds, Obj.delTs, eraseKey, List.filter, hbne, checkFieldEqual, annListBeq]
  exact ((C5_paused_poll_logic ⟨some 10000, 300000000000⟩ 20000 0 objC5w
      ⟨true, some snapC5, some 1000, none, some 5000⟩ snapC5 1000 rfl rfl rfl rfl rfl
      hdrift).1 10000 rfl).1 (by decide)

/-- Claim C6: an evaluation of an unpaused resource with `LastUnPauseTime`
set: while `now` is inside the frozen window the engine mutates nothing and
requests re-evaluation after exactly the remaining window duration; once
`now` is at or past the window's end, the evaluation proceeds to the
Ready/Synced condition checks. -/
theorem C6_frozen_window (r : Reconciler) (now draw : Int) (obj : Obj)
    (info : PauseInfo) (lupt : Int)
    (hp : parsePauseInfo obj = Except.ok (some info))
    (hunp : info.Pause = false)
    (hl : info.LastUnPauseTime = some lupt) :
    (now < lupt + r.FrozenTimeDuration →
      reconcile r now draw obj = some (RecOutcome.ok obj []
        (some (lupt + r.FrozenTimeDuration - now))))
    ∧ (lupt + r.FrozenTimeDuration ≤ now →
      reconcile r now draw obj = conditionPhase r now draw obj info []) := by
  have hfront : reconcile r now draw obj = unpausedPhase r now draw obj info [] := by
    cases hd : (Obj.delTs obj).isSome with
    | true =>
      simp only [reconcile, hp, Option.isNone_some, Bool.and_false, Bool.false_eq_true,
        if_false, Option.getD_some, hd, if_true,
        ensureUnPause_noop obj info now "resource deleted" hunp, hunp]
    | false =>
      simp only [reconcile, hp, Option.isNone_some, Bool.and_false, Bool.false_eq_true,
        if_false, Option.getD_some, hd, hunp]
  constructor
  · intro hf
    rw [hfront]
    simp only [unpausedPhase, hl, if_pos hf]
  · intro hf
    rw [hfront]
    simp only [unpausedPhase, hl, not_lt.mpr hf, Bool.false_eq_true, if_false]

/-- An unpaused resource whose record has `LastUnPauseTime = 1000`. -/
def objC6w : Obj :=
  Obj.mk (some [(AnnotationKeyPauseInfo, AnnVal.enc false none none (some 1000) none)])
    none none none none

/-- Witness for C6: with a frozen duration of `300`, evaluating at
`now = 1100` (inside the window) requests a requeue of exactly `200` and
leaves the resource untouched. -/
theorem C6_witness :
    reconcile ⟨none, 300⟩ 1100 0 objC6w
      = some (RecOutcome.ok objC6w [] (some (1000 + 300 - 1100))) :=
  (C6_frozen_window ⟨none, 300⟩ 1100 0 objC6w ⟨false, none, none, some 1000, none⟩ 1000
    rfl rfl rfl).1 (by decide)

/-- A deleted resource with Ready and Synced both true, no PauseState
annotation, and the pause-flag marker set by an external actor. -/
def objC9 : Obj :=
  Obj.mk (some [(AnnotationKeyReconciliationPaused, AnnVal.str "true")])
    none none (some [("Ready", "True"), ("Synced", "True")]) (some 5)

/-- Claim C9 (counterexample): a deleted resource with PauseState absent,
no frozen window, and Ready and Synced both `"True"` is NOT paused when the
pause-flag marker was set externally: the external-override rule
(marker present, state absent) returns without any transition, so the
claimed universal "the engine performs the pause transition" fails. -/
theorem C9_override_counterexample :
    parsePauseInfo objC9 = Except.ok none
    ∧ (Obj.delTs objC9).isSome = true
    ∧ getCondition "Ready" objC9 = some "True"
    ∧ getCondition "Synced" objC9 = some "True"
    ∧ reconcile ⟨none, 300000000000⟩ 1000 0 objC9
      = some (RecOutcome.ok objC9 [] none) :=
  ⟨rfl, rfl, rfl, rfl, rfl⟩

/-- Claim C9 (amended): an evaluation of a deleted resource whose
PauseState is absent or unpaused, with no active frozen window and with
Ready and Synced both `"True"`, performs the pause transition on the
deleted resource — provided the resource is not in the external-override
state (pause-flag marker set while PauseState is absent), in which case the
evaluation is ignored before the deletion rule is reached. -/
theorem C9_deleted_unpaused_pauses (r : Reconciler) (now draw : Int) (obj : Obj)
    (infoOpt : Option PauseInfo)
    (hp : parsePauseInfo obj = Except.ok infoOpt)
    (hover : infoOpt = none →
      isPaused (annStrVal (annLookup AnnotationKeyReconciliationPaused (Obj.ann obj))) = false)
    (hunp : (infoOpt.getD defaultInfo).Pause = false)
    (hfrozen : ∀ lupt, (infoOpt.getD defaultInfo).LastUnPauseTime = some lupt →
        lupt + r.FrozenTimeDuration ≤ now)
    (hready : getCondition "Ready" obj = some "True")
    (hsynced : getCondition "Synced" obj = some "True")
    (hdel : (Obj.delTs obj).isSome = true) :
    reconcile r now draw obj
      = some (RecOutcome.ok
          (ensurePause obj (infoOpt.getD defaultInfo) r.UnPausePollInterval now draw
            "Ready and Synced").obj
          [RecAction.didPause "Ready and Synced"] none) := by
  have hfront : reconcile r now draw obj
      = unpausedPhase r now draw obj (infoOpt.getD defaultInfo) [] := by
    cases infoOpt with
    | none =>
      simp only [reconcile, hp, hover rfl, Bool.false_and, Bool.false_eq_true, if_false,
        Option.getD_none, hdel, if_true,
        ensureUnPause_noop obj defaultInfo now "resource deleted" rfl]
      simp [defaultInfo]
    | some i =>
      simp only [Option.getD_some] at hunp ⊢
      simp only [reconcile, hp, Option.isNone_some, Bool.and_false, Bool.false_eq_true,
        if_false, Option.getD_some, hdel, if_true,
        ensureUnPause_noop obj i now "resource deleted" hunp, hunp]
  rw [hfront]
  have hcond : unpausedPhase r now draw obj (infoOpt.getD defaultInfo) []
      = conditionPhase r now draw obj (infoOpt.getD defaultInfo) [] := by
    cases hlu : (infoOpt.getD defaultInfo).LastUnPauseTime with
    | none => simp only [unpausedPhase, hlu]
    | some lupt =>
      simp only [unpausedPhase, hlu, not_lt.mpr (hfrozen lupt hlu), Bool.false_eq_true,
        if_false]
  rw [hcond]
  simp only [conditionPhase, hready, hsynced, beq_self_eq_true, Bool.not_true,
    Bool.false_eq_true, if_false, List.nil_append,
    ensurePause_acts obj (infoOpt.getD defaultInfo) r.UnPausePollInterval now draw
      "Ready and Synced" hunp]

/-- A deleted, unpaused resource (PauseState present with `Pause = false`)
with Ready and Synced both true. -/
def objC9w : Obj :=
  Obj.mk (some [(AnnotationKeyPauseInfo, AnnVal.enc false none none none none)])
    none none (some [("Ready", "True"), ("Synced", "True")]) (some 5)

/-- Witness for C9: the concrete deleted, unpaused, Ready-and-Synced
resource is paused. -/
theorem C9_witness :
    reconcile ⟨none, 300000000000⟩ 1000 0 objC9w
      = some (RecOutcome.ok
          (ensurePause objC9w ⟨false, none, none, none, none⟩ none 1000 0
            "Ready and Synced").obj
          [RecAction.didPause "Ready and Synced"] none) :=
  C9_deleted_unpaused_pauses ⟨none, 300000000000⟩ 1000 0 objC9w
    (some ⟨false, none, none, none, none⟩) rfl (fun h => nomatch h) rfl
    (fun _ h => nomatch h) rfl rfl rfl

/-- The persisted-state invariant the paused branch of `Reconcile` relies
on: a paused record has a snapshot and a last-pause time. -/
def pausedWF (i : PauseInfo) : Prop :=
  i.Pause = true → (i.Object.isSome = true ∧ i.LastPauseTime.isSome = true)

/-- A resource whose stored PauseState is the hand-written record
`{"pause": true}`: paused with no snapshot and no timestamps. -/
def objC10 : Obj :=
  Obj.mk (some [(AnnotationKeyPauseInfo, AnnVal.enc true none none none none)])
    none none none none

/-- Claim C10: the paused branch dereferences the snapshot (in the drift
check) and `LastPauseTime` (when a poll interval is configured) without nil
guards; every evaluation whose decoded state satisfies the persisted-state
invariant is total, while a stored state violating it — here the record
`{"pause": true}` — makes the paused branch undefined (a nil-pointer
dereference, `none` in this model) rather than an error return. -/
theorem C10_paused_branch_totality :
    (∀ (r : Reconciler) (now draw : Int) (obj : Obj) (infoOpt : Option PauseInfo),
      parsePauseInfo obj = Except.ok infoOpt →
      (∀ i, infoOpt = some i → pausedWF i) →
      (reconcile r now draw obj).isSome = true)
    ∧ reconcile ⟨some 3600000000000, 300000000000⟩ 0 0 objC10 = none := by
  constructor
  · intro r now draw obj infoOpt hp hwf
    have hwf0 : pausedWF (infoOpt.getD defaultInfo) := by
      cases infoOpt with
      | none => intro h; exact absurd h (by simp [defaultInfo])
      | some i => exact hwf i rfl
    simp only [reconcile, hp]
    by_cases hov : (isPaused (annStrVal (annLookup AnnotationKeyReconciliationPaused
        (Obj.ann obj))) && infoOpt.isNone) = true
    · simp [hov]
    · simp only [Bool.not_eq_true] at hov
      simp only [hov, Bool.false_eq_true, if_false]
      cases hd : (Obj.delTs obj).isSome with
      | true =>
        simp only [if_true]
        cases hP : (infoOpt.getD defaultInfo).Pause with
        | true =>
          simp only [ensureUnPause_pause_false _ _ now "resource deleted" hP,
            Bool.false_eq_true, if_false]
          exact unpausedPhase_isSome _ _ _ _ _ _
        | false =>
          simp only [ensureUnPause_noop _ _ now "resource deleted" hP, hP,
            Bool.false_eq_true, if_false]
          exact unpausedPhase_isSome _ _ _ _ _ _
      | false =>
        simp only [Bool.false_eq_true, if_false]
        cases hP : (infoOpt.getD defaultInfo).Pause with
        | false =>
          simp only [hP, Bool.false_eq_true, if_false]
          exact unpausedPhase_isSome _ _ _ _ _ _
        | true =>
          simp only [hP, if_true]
          obtain ⟨hObj, hLpt⟩ := hwf0 hP
          obtain ⟨snap, hsnap⟩ := Option.isSome_iff_exists.mp hObj
          obtain ⟨lpt, hlpt⟩ := Option.isSome_iff_exists.mp hLpt
          simp only [pausedPhase, hsnap, hlpt]
          cases hup : isUpdated obj snap with
          | true => simp
          | false =>
            cases hivl : r.UnPausePollInterval with
            | none => simp
            | some ivl =>
              by_cases hdue : now < (infoOpt.getD defaultInfo).ShouldUnpauseTime.getD
                  (lpt + ivl)
              · simp [hdue]
              · simp [hdue]
  · rfl

/-- Witness for C10: an evaluation with an absent PauseState (which
trivially satisfies the invariant) is defined. -/
theorem C10_witness : (reconcile ⟨none, 300000000000⟩ 0 0 objEmpty).isSome = true :=
  C10_paused_branch_totality.1 ⟨none, 300000000000⟩ 0 0 objEmpty none rfl
    (fun _ h => nomatch h)
